import Mathlib

/-!
Shallow embedding of `github.com/bobg/prcomment` (prcomment.go) and proofs
about its two entry points, `Commenter.AddOrUpdate` and `ParsePR`.

The Go code talks to GitHub through two narrow interfaces (`prsIntf`,
`issuesIntf`).  We embed one invocation of `AddOrUpdate` by fixing the
responses those collaborators give for the (fixed) `owner`, `reponame` and
`prnum` arguments of the call: each interface method becomes a field of the
`Commenter` structure holding its response.  The embedding returns, besides
the Go function's `error` result, the trace of collaborator calls performed,
so that statements about side effects (which writes happened, in what order,
what was never called) can be made.
-/

/-- Go `error` values produced by the collaborators; their content is opaque
to prcomment.go, which only wraps and propagates them. -/
def GhError := String

instance : DecidableEq GhError := inferInstanceAs (DecidableEq String)

/-- Model of `*github.PullRequest`: opaque metadata, only passed to the body
generator. -/
structure PullRequest where
  meta : Nat
deriving DecidableEq, Repr

/-- Model of `*github.IssueComment`.  The Go struct has pointer fields
`ID *int64` and `Body *string`; a `nil` pointer is `none`. -/
structure IssueComment where
  id : Option Int
  body : Option String
deriving DecidableEq, Repr

/-- One collaborator call made during `AddOrUpdate`, in the order performed:
the `prs.Get` read, the body-generator callback, the `issues.ListComments`
read, one `IsComment` predicate invocation, and the two writes
`issues.EditComment` / `issues.CreateComment` with their arguments. -/
inductive Event where
  | getPR : Event
  | genBody : PullRequest → Event
  | listComments : Event
  | isComment : IssueComment → Event
  | editComment : Int → IssueComment → Event
  | createComment : IssueComment → Event
deriving DecidableEq, Repr

/-- Result of one `AddOrUpdate` invocation: the returned `error` (nil, or a
non-nil error wrapped with its stage label by `errors.Wrap`), or the Go
runtime panic raised by dereferencing the nil `comment.ID` pointer at
`*comment.ID` (line 61 of prcomment.go). -/
inductive Outcome where
  | ok : Outcome
  | err : String → GhError → Outcome
  | panicNilDeref : Outcome
deriving DecidableEq

/-- Model of `errors.Wrap(err, stage)` applied to a collaborator result:
`Wrap` returns nil on a nil error and otherwise labels the error with the
stage message. -/
def wrap (stage : String) : Except GhError Unit → Outcome
  | Except.ok _ => Outcome.ok
  | Except.error e => Outcome.err stage e

/-- Embedding of the Go `Commenter` struct for one `AddOrUpdate` call.
`IsComment` is the optional matcher field (`nil` = `none`); `body` is the
injected body generator; the remaining fields are the responses of the
injected `prsIntf` / `issuesIntf` collaborators for this call's fixed
`owner`, `reponame`, `prnum` arguments (`github.Response` values, discarded
by the Go code, are omitted; the comment returned by the two writes is also
discarded, so the writes' results are modelled as `Except GhError Unit`). -/
structure Commenter where
  IsComment : Option (IssueComment → Bool)
  body : PullRequest → Except GhError String
  prsGet : Except GhError PullRequest
  issuesList : Except GhError (List IssueComment)
  issuesEdit : Int → IssueComment → Except GhError Unit
  issuesCreate : IssueComment → Except GhError Unit

/-- The `for _, comment := range comments` loop of `AddOrUpdate` (lines
59-64): scan the comments in order; on the first comment accepted by `isC`,
dereference its `ID` (panicking if nil) and call `EditComment`, returning
the wrapped edit result.  Yields `none` if no comment matched, together
with the trace of calls made by the loop. -/
def scanComments (isC : IssueComment → Bool) (ic : IssueComment)
    (edit : Int → IssueComment → Except GhError Unit) :
    List IssueComment → Option Outcome × List Event
  | [] => (none, [])
  | x :: rest =>
    if isC x then
      match x.id with
      | none => (some Outcome.panicNilDeref, [Event.isComment x])
      | some cid =>
        (some (wrap "updating PR comment" (edit cid ic)),
         [Event.isComment x, Event.editComment cid ic])
    else
      let r := scanComments isC ic edit rest
      (r.1, Event.isComment x :: r.2)

/-- Embedding of `Commenter.AddOrUpdate` (prcomment.go lines 41-69):
get the PR, generate the body, list the comments, then either edit the
first matching comment (when a matcher is configured and matches) or create
a new comment.  Returns the Go function's result together with the trace of
collaborator calls. -/
def AddOrUpdate (c : Commenter) : Outcome × List Event :=
  match c.prsGet with
  | Except.error e => (Outcome.err "getting pull request" e, [Event.getPR])
  | Except.ok pr =>
    match c.body pr with
    | Except.error e =>
      (Outcome.err "getting comment body" e, [Event.getPR, Event.genBody pr])
    | Except.ok b =>
      let ic : IssueComment := { id := none, body := some b }
      match c.issuesList with
      | Except.error e =>
        (Outcome.err "listing PR comments" e,
         [Event.getPR, Event.genBody pr, Event.listComments])
      | Except.ok comments =>
        match c.IsComment with
        | some isC =>
          match scanComments isC ic c.issuesEdit comments with
          | (some o, evs) =>
            (o, [Event.getPR, Event.genBody pr, Event.listComments] ++ evs)
          | (none, evs) =>
            (wrap "adding PR comment" (c.issuesCreate ic),
             [Event.getPR, Event.genBody pr, Event.listComments] ++ evs
               ++ [Event.createComment ic])
        | none =>
          (wrap "adding PR comment" (c.issuesCreate ic),
           [Event.getPR, Event.genBody pr, Event.listComments,
            Event.createComment ic])

/-- Whether an event is a network write (an edit or a create). -/
def isWrite : Event → Bool
  | Event.editComment _ _ => true
  | Event.createComment _ => true
  | _ => false

/-- The network writes contained in a trace, in order. -/
def writes (evs : List Event) : List Event := evs.filter isWrite

/-!
Embedding of `ParsePR` (the second half of the source file).  Go library
helpers used by it — `strings.TrimLeft(path, "/")`, `strings.Split(path,
"/")`, `strconv.Atoi` and the relevant fragment of `net/url.Parse` — are
modelled below with their Go semantics.
-/

/-- Model of `strings.Split(s, "/")` on the character list of `s`: splitting
on a single separator character; `Split("", "/")` is `[""]`. -/
def splitOnChar (sep : Char) : List Char → List (List Char)
  | [] => [[]]
  | c :: rest =>
    let r := splitOnChar sep rest
    if c == sep then [] :: r
    else
      match r with
      | [] => [[c]]
      | g :: gs => (c :: g) :: gs

/-- Model of `strings.Split(s, "/")`. -/
def splitSlash (s : String) : List String :=
  (splitOnChar '/' s.toList).map (fun cs => String.mk cs)

/-- Model of `strings.TrimLeft(s, "/")`: removes every leading `'/'`. -/
def trimLeftSlash (s : String) : String :=
  String.mk (s.toList.dropWhile (fun c => c == '/'))

/-- The path segments `ParsePR` works with (lines 83-84 of the source):
`parts := strings.Split(strings.TrimLeft(u.Path, "/"), "/")`. -/
def pathParts (path : String) : List String :=
  splitSlash (trimLeftSlash path)

/-- The two failure kinds of `strconv.Atoi` (`ErrSyntax`, `ErrRange`). -/
inductive AtoiErr where
  | badDigits : AtoiErr
  | outOfRange : AtoiErr
deriving DecidableEq, Repr

/-- Decimal value of a character list, `none` if any character is not an
ASCII digit; the empty list yields `some 0` (callers reject it). -/
def decValue (cs : List Char) : Option Nat :=
  cs.foldl
    (fun acc c =>
      match acc with
      | none => none
      | some n => if c.isDigit then some (10 * n + (c.toNat - 48)) else none)
    (some 0)

/-- Model of `strconv.Atoi`: optional `+`/`-` sign, then one or more decimal
digits; on `ErrSyntax` the value is 0, on `ErrRange` (overflow past int64)
the value is clamped to the int64 range, as Go's `ParseInt` specifies. -/
def atoi (s : String) : Int × Option AtoiErr :=
  let cs := s.toList
  let sd : Bool × List Char :=
    match cs with
    | '+' :: rest => (false, rest)
    | '-' :: rest => (true, rest)
    | _ => (false, cs)
  match sd.2, decValue sd.2 with
  | [], _ => (0, some AtoiErr.badDigits)
  | _, none => (0, some AtoiErr.badDigits)
  | _, some n =>
    if sd.1 then
      if n ≤ 2 ^ 63 then (-(n : Int), none)
      else (-(2 ^ 63 : Int), some AtoiErr.outOfRange)
    else
      if n < 2 ^ 63 then ((n : Int), none)
      else ((2 ^ 63 - 1 : Int), some AtoiErr.outOfRange)

/-- The error cases of `ParsePR`, one constructor per `error` value the Go
function can set: the wrapped `url.Parse` error, `fmt.Errorf("too few path
elements in pull-request URL (got %d, want 4)", len(parts))`,
`fmt.Errorf("pull-request URL not in expected format")`, and the wrapped
`strconv.Atoi` error. -/
inductive ParseErr where
  | malformedURL : String → ParseErr
  | tooFewSegments : Nat → ParseErr
  | unexpectedFormat : ParseErr
  | invalidNumber : AtoiErr → ParseErr
deriving DecidableEq, Repr

/-- The five named results of `ParsePR`:
`(host, owner, reponame string, prnum int, err error)`.  Go initialises
named results to zero values (`""`, `0`, `nil`). -/
structure PRResult where
  host : String
  owner : String
  reponame : String
  prnum : Int
  err : Option ParseErr
deriving DecidableEq, Repr

/-- The relevant part of a parsed `net/url.URL`: `ParsePR` reads only
`u.Host` and `u.Path`. -/
structure URL where
  host : String
  path : String
deriving DecidableEq, Repr

/-- Model of `net/url.Parse` restricted to the `scheme://host/path` URLs
this package is documented for ("which should have the form
http(s)://HOST/OWNER/REPO/pull/NUMBER"): the text before the first `"://"`
is the scheme, the host runs to the next `/`, and the path is the rest
(starting with that `/`, or empty).  Strings outside this fragment are
mapped to a parse error. -/
def splitScheme : List Char → Option (List Char × List Char)
  | [] => none
  | ':' :: '/' :: '/' :: rest => some ([], rest)
  | c :: rest =>
    match splitScheme rest with
    | none => none
    | some pr => some (c :: pr.1, pr.2)

/-- Model of `net/url.Parse` on the absolute-URL fragment (see
`splitScheme`). -/
def urlParse (s : String) : Except String URL :=
  match splitScheme s.toList with
  | none => Except.error "model: URL outside the scheme://host/path fragment"
  | some (_, rest) =>
    Except.ok
      { host := String.mk (rest.takeWhile (fun c => c ≠ '/')),
        path := String.mk (rest.dropWhile (fun c => c ≠ '/')) }

/-- Lines 85-97 of the source, operating on `u.Host` and the computed
`parts`: require at least four segments, require `parts[2] == "pull"`,
assign `host`, `owner`, `reponame`, then parse `parts[3]` with
`strconv.Atoi` into `prnum` (wrapping its error, `Wrap` of nil being
nil). -/
def parseParts (host : String) (parts : List String) : PRResult :=
  if parts.length < 4 then
    { host := "", owner := "", reponame := "", prnum := 0,
      err := some (ParseErr.tooFewSegments parts.length) }
  else if parts.getD 2 "" ≠ "pull" then
    { host := "", owner := "", reponame := "", prnum := 0,
      err := some ParseErr.unexpectedFormat }
  else
    let a := atoi (parts.getD 3 "")
    { host := host, owner := parts.getD 0 "", reponame := parts.getD 1 "",
      prnum := a.1,
      err := (a.2).map (fun e => ParseErr.invalidNumber e) }

/-- `ParsePR` after a successful `url.Parse`: segments from `pathParts`,
checks and assignments from `parseParts`. -/
def parsePRofURL (u : URL) : PRResult :=
  parseParts u.host (pathParts u.path)

/-- Embedding of `ParsePR` (lines 77-98): parse the URL (wrapping a parse
failure), then split the path and validate the segments. -/
def ParsePR (pr : String) : PRResult :=
  match urlParse pr with
  | Except.error e =>
    { host := "", owner := "", reponame := "", prnum := 0,
      err := some (ParseErr.malformedURL e) }
  | Except.ok u => parsePRofURL u

/-- Segment computation as the specification describes it for claim C7:
remove exactly one leading slash, then split on `/`. -/
def singleSlashSegments (path : String) : List String :=
  splitSlash
    (String.mk
      (match path.toList with
       | '/' :: rest => rest
       | l => l))

/-!
Concrete `Commenter` values used to evaluate the theorems below on closed
inputs.
-/

/-- A commenter whose matcher accepts the second and third listed comments;
every collaborator call succeeds. -/
def cEdit : Commenter where
  IsComment := some (fun x => x.body == some "old2")
  body := fun _ => Except.ok "NEW"
  prsGet := Except.ok ⟨7⟩
  issuesList := Except.ok
    [⟨some 1, some "old1"⟩, ⟨some 2, some "old2"⟩, ⟨some 3, some "old2"⟩]
  issuesEdit := fun _ _ => Except.ok ()
  issuesCreate := fun _ => Except.ok ()

/-- Like `cEdit` but the edit write fails. -/
def cEditFail : Commenter where
  IsComment := some (fun x => x.body == some "old2")
  body := fun _ => Except.ok "NEW"
  prsGet := Except.ok ⟨7⟩
  issuesList := Except.ok
    [⟨some 1, some "old1"⟩, ⟨some 2, some "old2"⟩, ⟨some 3, some "old2"⟩]
  issuesEdit := fun _ _ => Except.error "edit refused"
  issuesCreate := fun _ => Except.ok ()

/-- A commenter with no matcher configured (`IsComment` is nil). -/
def cNilMatcher : Commenter where
  IsComment := none
  body := fun _ => Except.ok "NEW"
  prsGet := Except.ok ⟨7⟩
  issuesList := Except.ok [⟨some 1, some "old1"⟩]
  issuesEdit := fun _ _ => Except.ok ()
  issuesCreate := fun _ => Except.ok ()

/-- A commenter whose matcher rejects every listed comment. -/
def cNoMatch : Commenter where
  IsComment := some (fun x => x.body == some "absent")
  body := fun _ => Except.ok "NEW"
  prsGet := Except.ok ⟨7⟩
  issuesList := Except.ok [⟨some 1, some "old1"⟩, ⟨some 2, some "old2"⟩]
  issuesEdit := fun _ _ => Except.ok ()
  issuesCreate := fun _ => Except.ok ()

/-- Like `cNoMatch` but the create write fails. -/
def cCreateFail : Commenter where
  IsComment := some (fun x => x.body == some "absent")
  body := fun _ => Except.ok "NEW"
  prsGet := Except.ok ⟨7⟩
  issuesList := Except.ok [⟨some 1, some "old1"⟩]
  issuesEdit := fun _ _ => Except.ok ()
  issuesCreate := fun _ => Except.error "create refused"

/-- A commenter whose `prs.Get` call fails. -/
def cGetFail : Commenter where
  IsComment := some (fun _ => true)
  body := fun _ => Except.ok "NEW"
  prsGet := Except.error "404"
  issuesList := Except.ok [⟨some 1, some "old1"⟩]
  issuesEdit := fun _ _ => Except.ok ()
  issuesCreate := fun _ => Except.ok ()

/-- A commenter whose body generator fails. -/
def cBodyFail : Commenter where
  IsComment := some (fun _ => true)
  body := fun _ => Except.error "template broken"
  prsGet := Except.ok ⟨7⟩
  issuesList := Except.ok [⟨some 1, some "old1"⟩]
  issuesEdit := fun _ _ => Except.ok ()
  issuesCreate := fun _ => Except.ok ()

/-- A commenter whose `ListComments` call fails. -/
def cListFail : Commenter where
  IsComment := some (fun _ => true)
  body := fun _ => Except.ok "NEW"
  prsGet := Except.ok ⟨7⟩
  issuesList := Except.error "rate limited"
  issuesEdit := fun _ _ => Except.ok ()
  issuesCreate := fun _ => Except.ok ()

/-- A commenter whose matcher accepts a comment carrying a nil `ID`. -/
def cPanic : Commenter where
  IsComment := some (fun x => x.body == some "old2")
  body := fun _ => Except.ok "NEW"
  prsGet := Except.ok ⟨7⟩
  issuesList := Except.ok [⟨some 1, some "old1"⟩, ⟨none, some "old2"⟩]
  issuesEdit := fun _ _ => Except.ok ()
  issuesCreate := fun _ => Except.ok ()

/-!
Helper lemmas about the scan loop and the write trace.
-/

/-- Wrapping a collaborator result never produces the nil-deref panic. -/
theorem wrap_ne_panic (stage : String) (r : Except GhError Unit) :
    wrap stage r ≠ Outcome.panicNilDeref := by
  cases r <;> simp [wrap]

/-- Matcher invocations alone contain no write. -/
theorem writes_map_isComment (l : List IssueComment) :
    (l.map Event.isComment).filter isWrite = [] := by
  induction l with
  | nil => rfl
  | cons x rest ih =>
    simp only [List.map_cons, List.filter_cons, isWrite]
    exact ih

/-- If the scan finds a first matching comment, the loop stops there: it
calls the matcher on the non-matching front and on that comment, then (if
the comment's `ID` is present) performs the one edit with the wrapped edit
result, or (if the `ID` is nil) panics. -/
theorem scanComments_found (isC : IssueComment → Bool) (ic : IssueComment)
    (edit : Int → IssueComment → Except GhError Unit) :
    ∀ (l : List IssueComment) (cm : IssueComment), l.find? isC = some cm →
      (∀ cid, cm.id = some cid →
        scanComments isC ic edit l =
          (some (wrap "updating PR comment" (edit cid ic)),
           (l.takeWhile (fun x => !isC x)).map Event.isComment
             ++ [Event.isComment cm, Event.editComment cid ic]))
      ∧ (cm.id = none →
        scanComments isC ic edit l =
          (some Outcome.panicNilDeref,
           (l.takeWhile (fun x => !isC x)).map Event.isComment
             ++ [Event.isComment cm])) := by
  intro l
  induction l with
  | nil => intro cm h; simp [List.find?] at h
  | cons x rest ih =>
    intro cm h
    by_cases hx : isC x
    · rw [List.find?_cons_of_pos _ hx] at h
      injection h with h
      subst h
      constructor
      · intro cid hid
        simp [scanComments, hx, hid, List.takeWhile_cons]
      · intro hid
        simp [scanComments, hx, hid, List.takeWhile_cons]
    · rw [List.find?_cons_of_neg _ hx] at h
      obtain ⟨ih1, ih2⟩ := ih cm h
      constructor
      · intro cid hid
        simp [scanComments, hx, List.takeWhile_cons, ih1 cid hid]
      · intro hid
        simp [scanComments, hx, List.takeWhile_cons, ih2 hid]

/-- If no listed comment matches, the scan calls the matcher on every
comment, in order, and reports no result. -/
theorem scanComments_none (isC : IssueComment → Bool) (ic : IssueComment)
    (edit : Int → IssueComment → Except GhError Unit) :
    ∀ l : List IssueComment, l.find? isC = none →
      scanComments isC ic edit l = (none, l.map Event.isComment) := by
  intro l
  induction l with
  | nil => intro _; rfl
  | cons x rest ih =>
    intro h
    by_cases hx : isC x
    · rw [List.find?_cons_of_pos _ hx] at h; exact absurd h (by simp)
    · rw [List.find?_cons_of_neg _ hx] at h
      simp [scanComments, hx, ih h]

/-- C1: for every pull request and every configured matcher that accepts at
least one listed comment, `AddOrUpdate` scans the comments in the order
returned by the service, issues exactly one edit — of the first accepted
comment, setting its body to the newly generated body — returns that edit's
(wrapped) result, examines no comment past the first match, and never calls
create.  (`hid` records that the matched comment carries an `ID`; the nil-ID
dereference is the subject of `addOrUpdate_nil_id_unsafe`.) -/
theorem addOrUpdate_edits_first_match (c : Commenter)
    (isC : IssueComment → Bool) (pr : PullRequest) (b : String)
    (comments : List IssueComment) (cm : IssueComment) (cid : Int)
    (hisc : c.IsComment = some isC)
    (hget : c.prsGet = Except.ok pr)
    (hbody : c.body pr = Except.ok b)
    (hlist : c.issuesList = Except.ok comments)
    (hfind : comments.find? isC = some cm)
    (hid : cm.id = some cid) :
    AddOrUpdate c =
      (wrap "updating PR comment" (c.issuesEdit cid ⟨none, some b⟩),
       [Event.getPR, Event.genBody pr, Event.listComments]
         ++ (comments.takeWhile (fun x => !isC x)).map Event.isComment
         ++ [Event.isComment cm, Event.editComment cid ⟨none, some b⟩])
      ∧ writes (AddOrUpdate c).2 = [Event.editComment cid ⟨none, some b⟩]
      ∧ (∀ x, Event.createComment x ∉ (AddOrUpdate c).2) := by
  have hscan :=
    (scanComments_found isC ⟨none, some b⟩ c.issuesEdit comments cm hfind).1 cid hid
  have hE : AddOrUpdate c =
      (wrap "updating PR comment" (c.issuesEdit cid ⟨none, some b⟩),
       [Event.getPR, Event.genBody pr, Event.listComments]
         ++ (comments.takeWhile (fun x => !isC x)).map Event.isComment
         ++ [Event.isComment cm, Event.editComment cid ⟨none, some b⟩]) := by
    simp only [AddOrUpdate, hget, hbody, hlist, hisc, hscan]
    simp
  refine ⟨hE, ?_, ?_⟩
  · rw [hE]
    simp [writes, List.filter_append, isWrite, writes_map_isComment]
  · intro x
    rw [hE]
    simp

/-- Closed instance of `addOrUpdate_edits_first_match` on `cEdit`: of the
two matching comments (IDs 2 and 3), only the first is edited, with the
generated body; the single write is that edit. -/
theorem addOrUpdate_edits_first_match_witness :
    AddOrUpdate cEdit =
      (Outcome.ok,
       [Event.getPR, Event.genBody ⟨7⟩, Event.listComments,
        Event.isComment ⟨some 1, some "old1"⟩,
        Event.isComment ⟨some 2, some "old2"⟩,
        Event.editComment 2 ⟨none, some "NEW"⟩])
      ∧ writes (AddOrUpdate cEdit).2 = [Event.editComment 2 ⟨none, some "NEW"⟩] := by
  have h := addOrUpdate_edits_first_match cEdit (fun x => x.body == some "old2")
    ⟨7⟩ "NEW"
    [⟨some 1, some "old1"⟩, ⟨some 2, some "old2"⟩, ⟨some 3, some "old2"⟩]
    ⟨some 2, some "old2"⟩ 2 rfl rfl rfl rfl (by decide) rfl
  exact ⟨(h.1).trans (by decide), h.2.1.trans (by decide)⟩

/-- C2: when no matcher is configured, or the configured matcher rejects
every listed comment, `AddOrUpdate` creates exactly one new comment carrying
the generated body and never calls edit; with a nil matcher the scan is
skipped entirely (no matcher invocation appears in the trace). -/
theorem addOrUpdate_creates_when_no_match (c : Commenter)
    (pr : PullRequest) (b : String) (comments : List IssueComment)
    (hget : c.prsGet = Except.ok pr)
    (hbody : c.body pr = Except.ok b)
    (hlist : c.issuesList = Except.ok comments) :
    (c.IsComment = none →
      AddOrUpdate c =
        (wrap "adding PR comment" (c.issuesCreate ⟨none, some b⟩),
         [Event.getPR, Event.genBody pr, Event.listComments,
          Event.createComment ⟨none, some b⟩]))
    ∧ (∀ isC, c.IsComment = some isC → comments.find? isC = none →
      AddOrUpdate c =
        (wrap "adding PR comment" (c.issuesCreate ⟨none, some b⟩),
         [Event.getPR, Event.genBody pr, Event.listComments]
           ++ comments.map Event.isComment
           ++ [Event.createComment ⟨none, some b⟩]))
    ∧ ((c.IsComment = none ∨
        (∃ isC, c.IsComment = some isC ∧ comments.find? isC = none)) →
      writes (AddOrUpdate c).2 = [Event.createComment ⟨none, some b⟩]
      ∧ ∀ i x, Event.editComment i x ∉ (AddOrUpdate c).2) := by
  have hnil : c.IsComment = none →
      AddOrUpdate c =
        (wrap "adding PR comment" (c.issuesCreate ⟨none, some b⟩),
         [Event.getPR, Event.genBody pr, Event.listComments,
          Event.createComment ⟨none, some b⟩]) := by
    intro hisc
    simp only [AddOrUpdate, hget, hbody, hlist, hisc]
  have hmiss : ∀ isC, c.IsComment = some isC → comments.find? isC = none →
      AddOrUpdate c =
        (wrap "adding PR comment" (c.issuesCreate ⟨none, some b⟩),
         [Event.getPR, Event.genBody pr, Event.listComments]
           ++ comments.map Event.isComment
           ++ [Event.createComment ⟨none, some b⟩]) := by
    intro isC hisc hfind
    have hscan := scanComments_none isC ⟨none, some b⟩ c.issuesEdit comments hfind
    simp only [AddOrUpdate, hget, hbody, hlist, hisc, hscan]
  refine ⟨hnil, hmiss, ?_⟩
  rintro (hisc | ⟨isC, hisc, hfind⟩)
  · rw [hnil hisc]
    constructor
    · simp [writes, isWrite]
    · intro i x; simp
  · rw [hmiss isC hisc hfind]
    constructor
    · simp [writes, List.filter_append, isWrite, writes_map_isComment]
    · intro i x; simp

/-- Closed instance of `addOrUpdate_creates_when_no_match` on `cNilMatcher`
(nil matcher: no scan at all) and `cNoMatch` (matcher rejects both listed
comments): each trace ends in the single create carrying the generated
body. -/
theorem addOrUpdate_creates_when_no_match_witness :
    AddOrUpdate cNilMatcher =
      (Outcome.ok,
       [Event.getPR, Event.genBody ⟨7⟩, Event.listComments,
        Event.createComment ⟨none, some "NEW"⟩])
    ∧ AddOrUpdate cNoMatch =
      (Outcome.ok,
       [Event.getPR, Event.genBody ⟨7⟩, Event.listComments,
        Event.isComment ⟨some 1, some "old1"⟩,
        Event.isComment ⟨some 2, some "old2"⟩,
        Event.createComment ⟨none, some "NEW"⟩]) := by
  have h1 := (addOrUpdate_creates_when_no_match cNilMatcher ⟨7⟩ "NEW"
    [⟨some 1, some "old1"⟩] rfl rfl rfl).1 rfl
  have h2 := (addOrUpdate_creates_when_no_match cNoMatch ⟨7⟩ "NEW"
    [⟨some 1, some "old1"⟩, ⟨some 2, some "old2"⟩] rfl rfl rfl).2.1
    (fun x => x.body == some "absent") rfl (by decide)
  exact ⟨h1.trans (by decide), h2.trans (by decide)⟩

/-- C3: an invocation performs at most one network write — exactly one
(an edit or a create, never both) when getting the PR, generating the body
and listing the comments all succeed (and no accepted comment hides a nil
`ID`, the case in which the edit branch panics before writing), and zero
writes when any of those earlier steps fails. -/
theorem addOrUpdate_single_write (c : Commenter) :
    (∀ e, c.prsGet = Except.error e → writes (AddOrUpdate c).2 = [])
    ∧ (∀ pr e, c.prsGet = Except.ok pr → c.body pr = Except.error e →
        writes (AddOrUpdate c).2 = [])
    ∧ (∀ pr b e, c.prsGet = Except.ok pr → c.body pr = Except.ok b →
        c.issuesList = Except.error e → writes (AddOrUpdate c).2 = [])
    ∧ (∀ pr b comments, c.prsGet = Except.ok pr → c.body pr = Except.ok b →
        c.issuesList = Except.ok comments →
        (∀ isC, c.IsComment = some isC →
          ∀ x ∈ comments, isC x = true → x.id ≠ none) →
        (writes (AddOrUpdate c).2).length = 1) := by
  refine ⟨?_, ?_, ?_, ?_⟩
  · intro e hg
    simp [AddOrUpdate, hg, writes, isWrite]
  · intro pr e hg hb
    simp [AddOrUpdate, hg, hb, writes, isWrite]
  · intro pr b e hg hb hl
    simp [AddOrUpdate, hg, hb, hl, writes, isWrite]
  · intro pr b comments hg hb hl hpre
    cases hisc : c.IsComment with
    | none =>
      simp [AddOrUpdate, hg, hb, hl, hisc, writes, isWrite]
    | some isC =>
      cases hf : comments.find? isC with
      | none =>
        have hscan := scanComments_none isC ⟨none, some b⟩ c.issuesEdit comments hf
        simp [AddOrUpdate, hg, hb, hl, hisc, hscan, writes,
          List.filter_append, isWrite, writes_map_isComment]
      | some cm =>
        have hmem := List.mem_of_find?_eq_some hf
        have hmatch := List.find?_some hf
        have hid := hpre isC hisc cm hmem hmatch
        cases hcid : cm.id with
        | none => exact absurd hcid hid
        | some cid =>
          have hscan :=
            (scanComments_found isC ⟨none, some b⟩ c.issuesEdit comments cm hf).1
              cid hcid
          simp [AddOrUpdate, hg, hb, hl, hisc, hscan, writes,
            List.filter_append, isWrite, writes_map_isComment]

/-- Closed instances of `addOrUpdate_single_write`: zero writes when the
fetch, the body generator or the listing fails, and exactly one write on a
fully successful edit run. -/
theorem addOrUpdate_single_write_witness :
    writes (AddOrUpdate cGetFail).2 = []
    ∧ writes (AddOrUpdate cBodyFail).2 = []
    ∧ writes (AddOrUpdate cListFail).2 = []
    ∧ (writes (AddOrUpdate cEdit).2).length = 1 := by
  refine ⟨(addOrUpdate_single_write cGetFail).1 "404" rfl,
    (addOrUpdate_single_write cBodyFail).2.1 ⟨7⟩ "template broken" rfl rfl,
    (addOrUpdate_single_write cListFail).2.2.1 ⟨7⟩ "NEW" "rate limited"
      rfl rfl rfl,
    (addOrUpdate_single_write cEdit).2.2.2 ⟨7⟩ "NEW"
      [⟨some 1, some "old1"⟩, ⟨some 2, some "old2"⟩, ⟨some 3, some "old2"⟩]
      rfl rfl rfl ?_⟩
  intro isC hisC
  have h' : (fun x : IssueComment => x.body == some "old2") = isC := by
    injection hisC
  subst h'
  decide

/-- C4: the steps run strictly in order — get PR, generate body, list
comments, write — and a failure at any step returns that step's error
wrapped with its stage label without executing any later step; in
particular, when the fetch fails the body generator is never invoked. -/
theorem addOrUpdate_stage_order (c : Commenter) :
    (∀ e, c.prsGet = Except.error e →
      AddOrUpdate c = (Outcome.err "getting pull request" e, [Event.getPR]))
    ∧ (∀ e pr, c.prsGet = Except.error e →
      Event.genBody pr ∉ (AddOrUpdate c).2)
    ∧ (∀ pr e, c.prsGet = Except.ok pr → c.body pr = Except.error e →
      AddOrUpdate c =
        (Outcome.err "getting comment body" e,
         [Event.getPR, Event.genBody pr]))
    ∧ (∀ pr b e, c.prsGet = Except.ok pr → c.body pr = Except.ok b →
      c.issuesList = Except.error e →
      AddOrUpdate c =
        (Outcome.err "listing PR comments" e,
         [Event.getPR, Event.genBody pr, Event.listComments]))
    ∧ (∀ pr b comments isC cm cid e, c.prsGet = Except.ok pr →
      c.body pr = Except.ok b → c.issuesList = Except.ok comments →
      c.IsComment = some isC → comments.find? isC = some cm →
      cm.id = some cid → c.issuesEdit cid ⟨none, some b⟩ = Except.error e →
      (AddOrUpdate c).1 = Outcome.err "updating PR comment" e)
    ∧ (∀ pr b comments e, c.prsGet = Except.ok pr →
      c.body pr = Except.ok b → c.issuesList = Except.ok comments →
      (c.IsComment = none ∨
        (∃ isC, c.IsComment = some isC ∧ comments.find? isC = none)) →
      c.issuesCreate ⟨none, some b⟩ = Except.error e →
      (AddOrUpdate c).1 = Outcome.err "adding PR comment" e) := by
  refine ⟨?_, ?_, ?_, ?_, ?_, ?_⟩
  · intro e hg
    simp [AddOrUpdate, hg]
  · intro e pr hg
    simp [AddOrUpdate, hg]
  · intro pr e hg hb
    simp [AddOrUpdate, hg, hb]
  · intro pr b e hg hb hl
    simp [AddOrUpdate, hg, hb, hl]
  · intro pr b comments isC cm cid e hg hb hl hisc hf hcid hedit
    have hscan :=
      (scanComments_found isC ⟨none, some b⟩ c.issuesEdit comments cm hf).1
        cid hcid
    simp [AddOrUpdate, hg, hb, hl, hisc, hscan, hedit, wrap]
  · rintro pr b comments e hg hb hl (hisc | ⟨isC, hisc, hf⟩) hcreate
    · simp [AddOrUpdate, hg, hb, hl, hisc, hcreate, wrap]
    · have hscan := scanComments_none isC ⟨none, some b⟩ c.issuesEdit comments hf
      simp [AddOrUpdate, hg, hb, hl, hisc, hscan, hcreate, wrap]

/-- Closed instances of `addOrUpdate_stage_order`, one per stage label: the
fetch, body-generation, listing, edit and create failures each yield the
wrapped error of their own stage, and a failed fetch leaves the body
generator uncalled. -/
theorem addOrUpdate_stage_order_witness :
    AddOrUpdate cGetFail =
      (Outcome.err "getting pull request" "404", [Event.getPR])
    ∧ Event.genBody ⟨7⟩ ∉ (AddOrUpdate cGetFail).2
    ∧ AddOrUpdate cBodyFail =
      (Outcome.err "getting comment body" "template broken",
       [Event.getPR, Event.genBody ⟨7⟩])
    ∧ AddOrUpdate cListFail =
      (Outcome.err "listing PR comments" "rate limited",
       [Event.getPR, Event.genBody ⟨7⟩, Event.listComments])
    ∧ (AddOrUpdate cEditFail).1 = Outcome.err "updating PR comment" "edit refused"
    ∧ (AddOrUpdate cCreateFail).1 = Outcome.err "adding PR comment" "create refused" := by
  refine ⟨(addOrUpdate_stage_order cGetFail).1 "404" rfl,
    (addOrUpdate_stage_order cGetFail).2.1 "404" ⟨7⟩ rfl,
    (addOrUpdate_stage_order cBodyFail).2.2.1 ⟨7⟩ "template broken" rfl rfl,
    (addOrUpdate_stage_order cListFail).2.2.2.1 ⟨7⟩ "NEW" "rate limited"
      rfl rfl rfl,
    (addOrUpdate_stage_order cEditFail).2.2.2.2.1 ⟨7⟩ "NEW"
      [⟨some 1, some "old1"⟩, ⟨some 2, some "old2"⟩, ⟨some 3, some "old2"⟩]
      (fun x => x.body == some "old2") ⟨some 2, some "old2"⟩ 2 "edit refused"
      rfl rfl rfl rfl (by decide) rfl rfl,
    (addOrUpdate_stage_order cCreateFail).2.2.2.2.2 ⟨7⟩ "NEW"
      [⟨some 1, some "old1"⟩] "create refused" rfl rfl rfl
      (Or.inr ⟨fun x => x.body == some "absent", rfl, by decide⟩) rfl⟩

/-- C8: the edit branch dereferences the matched comment's `ID` with no nil
check and no error path: whenever every listed comment the matcher accepts
carries a non-nil `ID` the invocation cannot panic, while a matched comment
with an absent `ID` (commenter `cPanic`) makes the dereference panic rather
than return an error. -/
theorem addOrUpdate_nil_id_unsafe :
    (∀ (c : Commenter) (isC : IssueComment → Bool), c.IsComment = some isC →
      (∀ comments, c.issuesList = Except.ok comments →
        ∀ x ∈ comments, isC x = true → x.id ≠ none) →
      (AddOrUpdate c).1 ≠ Outcome.panicNilDeref)
    ∧ (AddOrUpdate cPanic).1 = Outcome.panicNilDeref
    ∧ (∀ stage e, (AddOrUpdate cPanic).1 ≠ Outcome.err stage e)
    ∧ (AddOrUpdate cPanic).1 ≠ Outcome.ok := by
  have h2 : (AddOrUpdate cPanic).1 = Outcome.panicNilDeref := by decide
  refine ⟨?_, h2, ?_, ?_⟩
  · intro c isC hisc hpre
    cases hg : c.prsGet with
    | error e => simp [AddOrUpdate, hg]
    | ok pr =>
      cases hb : c.body pr with
      | error e => simp [AddOrUpdate, hg, hb]
      | ok b =>
        cases hl : c.issuesList with
        | error e => simp [AddOrUpdate, hg, hb, hl]
        | ok comments =>
          cases hf : comments.find? isC with
          | none =>
            have hscan :=
              scanComments_none isC ⟨none, some b⟩ c.issuesEdit comments hf
            simp only [AddOrUpdate, hg, hb, hl, hisc, hscan]
            exact wrap_ne_panic _ _
          | some cm =>
            have hmem := List.mem_of_find?_eq_some hf
            have hmatch := List.find?_some hf
            have hid := hpre comments hl cm hmem hmatch
            cases hcid : cm.id with
            | none => exact absurd hcid hid
            | some cid =>
              have hscan :=
                (scanComments_found isC ⟨none, some b⟩ c.issuesEdit comments cm
                  hf).1 cid hcid
              simp only [AddOrUpdate, hg, hb, hl, hisc, hscan]
              exact wrap_ne_panic _ _
  · intro stage e
    rw [h2]
    simp
  · rw [h2]
    simp

/-- Closed instance of the safety half of `addOrUpdate_nil_id_unsafe`: on
`cEdit`, where every comment the matcher accepts carries an `ID`, the
invocation does not panic. -/
theorem addOrUpdate_nil_id_unsafe_witness :
    (AddOrUpdate cEdit).1 ≠ Outcome.panicNilDeref := by
  refine addOrUpdate_nil_id_unsafe.1 cEdit (fun x => x.body == some "old2") rfl ?_
  intro comments hc
  have h' :
      [(⟨some 1, some "old1"⟩ : IssueComment), ⟨some 2, some "old2"⟩,
       ⟨some 3, some "old2"⟩] = comments := by
    injection hc
  subst h'
  decide

/-- Prepending a slash to a path changes nothing once the leading slashes
are trimmed. -/
theorem trimLeftSlash_cons_slash (p : String) :
    trimLeftSlash ("/" ++ p) = trimLeftSlash p := by
  cases p with
  | mk l =>
    show trimLeftSlash ⟨'/' :: l⟩ = trimLeftSlash ⟨l⟩
    simp [trimLeftSlash, String.toList, List.dropWhile_cons]

/-- C6: parsing `https://github.com/acme/widgets/pull/42` succeeds with host
`github.com`, owner `acme`, repository `widgets`, number 42 and a nil
error. -/
theorem parsePR_roundtrip :
    ParsePR "https://github.com/acme/widgets/pull/42" =
      { host := "github.com", owner := "acme", reponame := "widgets",
        prnum := 42, err := none } := by
  decide

/-- C5: `ParsePR` classifies a malformed URL by the first violated
requirement, in order — fewer than four segments, then a third segment
other than `pull`, then a non-integer fourth segment — so
`https://github.com/acme/widgets/issues/42` fails with the
unexpected-format error, not the invalid-number error. -/
theorem parsePR_error_order (h p : String) :
    ((pathParts p).length < 4 →
      parsePRofURL ⟨h, p⟩ =
        { host := "", owner := "", reponame := "", prnum := 0,
          err := some (ParseErr.tooFewSegments (pathParts p).length) })
    ∧ (4 ≤ (pathParts p).length → (pathParts p).getD 2 "" ≠ "pull" →
      (parsePRofURL ⟨h, p⟩).err = some ParseErr.unexpectedFormat)
    ∧ (4 ≤ (pathParts p).length → (pathParts p).getD 2 "" = "pull" →
      ∀ e, (atoi ((pathParts p).getD 3 "")).2 = some e →
      (parsePRofURL ⟨h, p⟩).err = some (ParseErr.invalidNumber e))
    ∧ (ParsePR "https://github.com/acme/widgets/issues/42").err =
        some ParseErr.unexpectedFormat
    ∧ (∀ e, (ParsePR "https://github.com/acme/widgets/issues/42").err ≠
        some (ParseErr.invalidNumber e)) := by
  refine ⟨?_, ?_, ?_, by decide, ?_⟩
  · intro hlt
    simp [parsePRofURL, parseParts, hlt]
  · intro hge hne
    simp only [List.getD_eq_getElem?_getD] at hne
    simp [parsePRofURL, parseParts, Nat.not_lt.mpr hge, hne]
  · intro hge heq e hatoi
    simp only [List.getD_eq_getElem?_getD] at heq hatoi
    simp [parsePRofURL, parseParts, Nat.not_lt.mpr hge, heq, hatoi]
  · intro e
    rw [show (ParsePR "https://github.com/acme/widgets/issues/42").err =
      some ParseErr.unexpectedFormat from by decide]
    simp

/-- Closed instances of `parsePR_error_order`: a two-segment path fails as
too-few-segments, an `issues` third segment as unexpected-format, and a
non-numeric fourth segment as invalid-number. -/
theorem parsePR_error_order_witness :
    parsePRofURL ⟨"github.com", "/acme/pull"⟩ =
      { host := "", owner := "", reponame := "", prnum := 0,
        err := some (ParseErr.tooFewSegments 2) }
    ∧ (parsePRofURL ⟨"github.com", "/acme/widgets/issues/42"⟩).err =
      some ParseErr.unexpectedFormat
    ∧ (parsePRofURL ⟨"github.com", "/acme/widgets/pull/abc"⟩).err =
      some (ParseErr.invalidNumber AtoiErr.badDigits) := by
  refine ⟨?_, ?_, ?_⟩
  · exact ((parsePR_error_order "github.com" "/acme/pull").1
      (by decide)).trans (by decide)
  · exact (parsePR_error_order "github.com" "/acme/widgets/issues/42").2.1
      (by decide) (by decide)
  · exact (parsePR_error_order "github.com" "/acme/widgets/pull/abc").2.2.1
      (by decide) (by decide) AtoiErr.badDigits (by decide)

/-- C7, counterexample: the code trims every leading slash
(`strings.TrimLeft`), not exactly one.  On the path `//acme/widgets/pull/42`
the segments the code uses differ from the remove-one-slash-then-split
computation the claim describes, and the observable result differs too: the
code parses `https://github.com//acme/widgets/pull/42` successfully with
owner `acme`, while the claimed computation would leave an empty first
segment and fail with the unexpected-format error. -/
theorem parsePR_single_slash_counterexample :
    pathParts "//acme/widgets/pull/42" ≠
      singleSlashSegments "//acme/widgets/pull/42"
    ∧ ParsePR "https://github.com//acme/widgets/pull/42" =
      { host := "github.com", owner := "acme", reponame := "widgets",
        prnum := 42, err := none }
    ∧ (parseParts "github.com"
        (singleSlashSegments "//acme/widgets/pull/42")).err =
      some ParseErr.unexpectedFormat := by
  refine ⟨by decide, by decide, by decide⟩

/-- C7, amended: `ParsePR` computes the path segments by trimming all
leading slashes and then splitting on `/`; prepending a further leading
slash never changes the segments or the result, and a path starting with
two slashes contributes no empty first segment
(`https://github.com//acme/widgets/pull/42` parses with owner `acme`). -/
theorem parsePR_trims_all_leading_slashes :
    (∀ p, pathParts ("/" ++ p) = pathParts p)
    ∧ (∀ h p, parsePRofURL ⟨h, "/" ++ p⟩ = parsePRofURL ⟨h, p⟩)
    ∧ ParsePR "https://github.com//acme/widgets/pull/42" =
      { host := "github.com", owner := "acme", reponame := "widgets",
        prnum := 42, err := none } := by
  refine ⟨?_, ?_, by decide⟩
  · intro p
    simp [pathParts, trimLeftSlash_cons_slash]
  · intro h p
    simp [parsePRofURL, pathParts, trimLeftSlash_cons_slash]

/-- C9: a URL whose first four path segments are owner, repo, the literal
`pull` and an integer parses successfully with that integer, whatever
trailing segments follow: the result depends only on the host and the first
four segments. -/
theorem parsePR_ignores_trailing_segments (h p : String)
    (h4 : 4 ≤ (pathParts p).length)
    (hpull : (pathParts p).getD 2 "" = "pull")
    (hnum : (atoi ((pathParts p).getD 3 "")).2 = none) :
    parsePRofURL ⟨h, p⟩ =
      { host := h, owner := (pathParts p).getD 0 "",
        reponame := (pathParts p).getD 1 "",
        prnum := (atoi ((pathParts p).getD 3 "")).1, err := none } := by
  simp only [List.getD_eq_getElem?_getD] at hpull hnum ⊢
  simp [parsePRofURL, parseParts, Nat.not_lt.mpr h4, hpull, hnum]

/-- Closed instance of `parsePR_ignores_trailing_segments`: a URL ending in
`/pull/42/files` parses to number 42. -/
theorem parsePR_ignores_trailing_segments_witness :
    parsePRofURL ⟨"github.com", "/acme/widgets/pull/42/files"⟩ =
      { host := "github.com", owner := "acme", reponame := "widgets",
        prnum := 42, err := none } := by
  exact (parsePR_ignores_trailing_segments "github.com"
    "/acme/widgets/pull/42/files" (by decide) (by decide) (by decide)).trans
    (by decide)

/-- C10: `ParsePR`'s outputs are not all zeroed on every failure: on the
invalid-number failure the host, owner and repository name are already
populated from the URL alongside the non-nil error (and `prnum` holds the
value `Atoi` returned), while on the too-few-segments and
unexpected-format failures all four value results are zero values. -/
theorem parsePR_outputs_on_failure (h p : String) :
    (∀ e, (parsePRofURL ⟨h, p⟩).err = some (ParseErr.invalidNumber e) →
      parsePRofURL ⟨h, p⟩ =
        { host := h, owner := (pathParts p).getD 0 "",
          reponame := (pathParts p).getD 1 "",
          prnum := (atoi ((pathParts p).getD 3 "")).1,
          err := some (ParseErr.invalidNumber e) })
    ∧ (∀ n, (parsePRofURL ⟨h, p⟩).err = some (ParseErr.tooFewSegments n) →
      parsePRofURL ⟨h, p⟩ =
        { host := "", owner := "", reponame := "", prnum := 0,
          err := some (ParseErr.tooFewSegments n) })
    ∧ ((parsePRofURL ⟨h, p⟩).err = some ParseErr.unexpectedFormat →
      parsePRofURL ⟨h, p⟩ =
        { host := "", owner := "", reponame := "", prnum := 0,
          err := some ParseErr.unexpectedFormat }) := by
  simp only [List.getD_eq_getElem?_getD]
  refine ⟨?_, ?_, ?_⟩
  · intro e he
    by_cases h1 : (pathParts p).length < 4
    · simp [parsePRofURL, parseParts, h1] at he
    · by_cases h2 : (pathParts p)[2]?.getD "" = "pull"
      · cases ha : (atoi ((pathParts p)[3]?.getD "")).2 with
        | none =>
          simp [parsePRofURL, parseParts, h1, h2, ha] at he
        | some e2 =>
          have he2 : e2 = e := by
            simp [parsePRofURL, parseParts, h1, h2, ha] at he
            exact he
          subst he2
          simp [parsePRofURL, parseParts, h1, h2, ha]
      · simp [parsePRofURL, parseParts, h1, h2] at he
  · intro n hn
    by_cases h1 : (pathParts p).length < 4
    · have hln : (pathParts p).length = n := by
        simp [parsePRofURL, parseParts, h1] at hn
        exact hn
      subst hln
      simp [parsePRofURL, parseParts, h1]
    · by_cases h2 : (pathParts p)[2]?.getD "" = "pull"
      · cases ha : (atoi ((pathParts p)[3]?.getD "")).2 with
        | none => simp [parsePRofURL, parseParts, h1, h2, ha] at hn
        | some e2 => simp [parsePRofURL, parseParts, h1, h2, ha] at hn
      · simp [parsePRofURL, parseParts, h1, h2] at hn
  · intro hu
    by_cases h1 : (pathParts p).length < 4
    · simp [parsePRofURL, parseParts, h1] at hu
    · by_cases h2 : (pathParts p)[2]?.getD "" = "pull"
      · cases ha : (atoi ((pathParts p)[3]?.getD "")).2 with
        | none => simp [parsePRofURL, parseParts, h1, h2, ha] at hu
        | some e2 => simp [parsePRofURL, parseParts, h1, h2, ha] at hu
      · simp [parsePRofURL, parseParts, h1, h2]

/-- Closed instances of `parsePR_outputs_on_failure`: the invalid-number
failure keeps host `github.com`, owner `acme` and repo `widgets`, while the
too-few-segments and unexpected-format failures zero every value result. -/
theorem parsePR_outputs_on_failure_witness :
    parsePRofURL ⟨"github.com", "/acme/widgets/pull/abc"⟩ =
      { host := "github.com", owner := "acme", reponame := "widgets",
        prnum := 0, err := some (ParseErr.invalidNumber AtoiErr.badDigits) }
    ∧ parsePRofURL ⟨"github.com", "/acme/pull"⟩ =
      { host := "", owner := "", reponame := "", prnum := 0,
        err := some (ParseErr.tooFewSegments 2) }
    ∧ parsePRofURL ⟨"github.com", "/acme/widgets/issues/42"⟩ =
      { host := "", owner := "", reponame := "", prnum := 0,
        err := some ParseErr.unexpectedFormat } := by
  refine ⟨?_, ?_, ?_⟩
  · exact ((parsePR_outputs_on_failure "github.com" "/acme/widgets/pull/abc").1
      AtoiErr.badDigits (by decide)).trans (by decide)
  · exact ((parsePR_outputs_on_failure "github.com" "/acme/pull").2.1
      2 (by decide)).trans (by decide)
  · exact (parsePR_outputs_on_failure "github.com" "/acme/widgets/issues/42").2.2
      (by decide)
